import Mathlib

/-!
Verification of the grid-world dynamic-programming solver
(`GridWorldSolver` in `grid_world_dynamic_programming.ipynb`).

The solver state is a rectangular grid of state values.  Python floats are
modelled as rationals (every quantity the solver manipulates is a dyadic
rational for the configurations considered, so the model is exact there),
numpy arrays as lists of lists, and the unbounded convergence `while` loop
as a fuel-indexed recursion whose fuel-exhaustion branch is an explicit
error distinct from every behaviour of the real loop.
-/

-- Batteries marks the arithmetic of `Rat` irreducible, which blocks `decide`
-- on concrete rational computations; re-enable reduction for this file.
set_option allowUnsafeReducibility true
attribute [local semireducible] Rat.add Rat.mul Rat.inv Rat.sub Rat.div

namespace GridWorld

/-- The `terminals` keyword argument: which corners are absorbing. -/
inductive TerminalMode where
  | last
  | first_and_last
deriving DecidableEq

instance : BEq TerminalMode := instBEqOfDecidableEq

/-- Construction parameters of `GridWorldSolver.__init__`:
`rewards`, `gamma`, `theta`, and the `terminals` / `iterations` kwargs.
The grid itself (and hence `world_size`) is passed around explicitly. -/
structure Cfg where
  r : ℚ
  g : ℚ
  theta : ℚ
  terminals : TerminalMode
  iterations : Nat
deriving DecidableEq

/-- A value grid: `self.world`, a rectangular 2-D array of rationals. -/
abbrev Grid := List (List ℚ)

/-- `self.world[i, j]` (out-of-range reads default to `0`; the solver only
reads in-bounds cells). -/
def getCell (grid : Grid) (i j : Nat) : ℚ :=
  (grid.getD i []).getD j 0

/-- `self.world[i, j] = v` (a no-op out of bounds, like `List.set`). -/
def setCell (grid : Grid) (i j : Nat) (v : ℚ) : Grid :=
  grid.set i ((grid.getD i []).set j v)

/-- `self.world.shape[0]`. -/
def rows (grid : Grid) : Nat := grid.length

/-- `self.world.shape[1]`. -/
def cols (grid : Grid) : Nat := (grid.getD 0 []).length

/-- `np.zeros((h, w))`: the zero-initialized world. -/
def zeros (h w : Nat) : Grid :=
  List.replicate h (List.replicate w 0)

/-- A rectangular `h × w` grid, as numpy guarantees by construction. -/
def Wellformed (grid : Grid) (h w : Nat) : Prop :=
  grid.length = h ∧ ∀ k, k < h → (grid.getD k []).length = w

/-- The four neighbor coordinates computed inside `iterate`:
`up`/`down`/`left`/`right` with off-grid moves resolving to the state
itself (`if i-1 < 0: up = i` etc.), listed as `[(up,j),(down,j),(i,left),(i,right)]`. -/
def neighbors (h w i j : Nat) : List (Nat × Nat) :=
  let up := if i = 0 then i else i - 1
  let down := if i + 1 > h - 1 then i else i + 1
  let left := if j = 0 then j else j - 1
  let right := if j + 1 > w - 1 then j else j + 1
  [(up, j), (down, j), (i, left), (i, right)]

/-- `GridWorldSolver.v_pi`: folds over the given direction coordinates,
accumulating `(1/len(d)) * (self.r + self.g * self.world[direction])`
with `len(d) = 4` (the list `['up','down','left','right']`). -/
def v_pi (cfg : Cfg) (world : Grid) (directions : List (Nat × Nat)) : ℚ :=
  directions.foldl
    (fun total dir => total + (1 / 4) * (cfg.r + cfg.g * getCell world dir.1 dir.2)) 0

/-- The terminal-cell test of `iterate` (and `add_arrows`): the bottom-right
cell always, and additionally the top-left cell when
`self.terminals == 'first_and_last'`. -/
def isTerminal (cfg : Cfg) (h w i j : Nat) : Bool :=
  (i == h - 1 && j == w - 1) ||
    (i == 0 && j == 0 && cfg.terminals == TerminalMode.first_and_last)

/-- One loop body of `iterate`: skip terminal cells, otherwise overwrite
`self.world[i, j]` with `self.v_pi(directions)` computed from the current
(partially updated) world. -/
def updateCell (cfg : Cfg) (h w : Nat) (grid : Grid) (p : Nat × Nat) : Grid :=
  if isTerminal cfg h w p.1 p.2 then grid
  else setCell grid p.1 p.2 (v_pi cfg grid (neighbors h w p.1 p.2))

/-- The row-major order in which the two nested `for` loops of `iterate`
visit the cells. -/
def cellOrder (h w : Nat) : List (Nat × Nat) :=
  (List.range h).flatMap (fun i => (List.range w).map (fun j => (i, j)))

/-- The state-update part of `GridWorldSolver.iterate`: the two nested
`for` loops, which update `self.world` in place, cell by cell, in
row-major order. -/
def sweep (cfg : Cfg) (grid : Grid) : Grid :=
  (cellOrder (rows grid) (cols grid)).foldl (updateCell cfg (rows grid) (cols grid)) grid

/-- `self.world` flattened in row-major order (`reshape(1,-1)` then `squeeze`). -/
def flatten (grid : Grid) : List ℚ :=
  grid.flatten

/-- The elementwise `abs(w_flat - tmp_flat)` of `iterate`, where both
flattened arrays have had their first entry dropped (`[1:]`). -/
def absDiffs (tmp new : Grid) : List ℚ :=
  List.zipWith (fun a b => |a - b|) (flatten new).tail (flatten tmp).tail

/-- The delta computation at the end of `iterate` in convergence mode:
`max(abs(w_flat - tmp_flat))`.  Python's `max` raises `ValueError` on an
empty sequence; that failure is modelled by `none`. -/
def deltaOf (tmp new : Grid) : Option ℚ :=
  (absDiffs tmp new).max?

/-- `GridWorldSolver.iterate`: saves `tmp_world`, runs the in-place sweep,
and in convergence mode (`iterations == 0`) additionally returns the delta
(`none` in fixed-iteration mode, where the method returns `None`). -/
def iterate (cfg : Cfg) (grid : Grid) : Grid × Option ℚ :=
  let new := sweep cfg grid
  (new, if cfg.iterations = 0 then deltaOf grid new else none)

/-- The convergence-mode `while` loop of `calc_mini_gridworld`, with fuel.
`n` counts the sweeps performed before this call.  The loop body runs
`delta = self.iterate(); i += 1; if delta < self.theta: break`, and the
`while delta > self.theta` guard re-checks on equality, so the loop exits
exactly when `delta ≤ theta`; on exit the method prints
`Iterations completed : i+1` (modelled as the returned count) and returns
`self.world`.  A `none` delta is Python's `ValueError` from `max` on an
empty sequence. -/
def convergeLoop (cfg : Cfg) : Nat → Grid → Nat → Except String (Grid × Nat)
  | 0, _, _ => Except.error "fuel exhausted: loop did not terminate"
  | fuel + 1, grid, n =>
    let new := sweep cfg grid
    match deltaOf grid new with
    | none => Except.error "ValueError: max() arg is an empty sequence"
    | some d =>
      if d ≤ cfg.theta then Except.ok (new, n + 2)
      else convergeLoop cfg fuel new (n + 1)

/-- `GridWorldSolver.calc_mini_gridworld`: with `iterations` set, runs
exactly that many sweeps (`for i in range(self.iterations)`) and reports
`i + 1 = iterations`; otherwise loops until convergence.  The returned
pair is the final world and the printed iteration count. -/
def calc_mini_gridworld (cfg : Cfg) (fuel : Nat) (grid : Grid) :
    Except String (Grid × Nat) :=
  if cfg.iterations = 0 then convergeLoop cfg fuel grid 0
  else Except.ok (Nat.iterate (sweep cfg) cfg.iterations grid, (cfg.iterations - 1) + 1)

/-- The four candidate neighbors computed inside `add_arrows`, with `None`
for off-grid moves (`if i-1 < 0: up = None` etc.), each paired with the
directional symbol the loop appends for it (the loop index `k` selects
the symbol). -/
def arrowDirs (h w i j : Nat) : List (Option (Nat × Nat) × Char) :=
  let up : Option Nat := if i = 0 then none else some (i - 1)
  let down : Option Nat := if i + 1 > h - 1 then none else some (i + 1)
  let left : Option Nat := if j = 0 then none else some (j - 1)
  let right : Option Nat := if j + 1 > w - 1 then none else some (j + 1)
  [(up.map (fun a => (a, j)), '^'), (down.map (fun a => (a, j)), 'v'),
   (left.map (fun b => (i, b)), '<'), (right.map (fun b => (i, b)), '>')]

/-- One step of the `actions` loop in `add_arrows`: when the direction is
in-grid and its neighbor's value is strictly greater than the current
cell's, append the direction's symbol (`actions += '^'` etc.) and pad with
a space when the string has length 1 (`if len(actions) == 1`); indexing a
`None` direction raises and the `except: pass` skips it.  Python strings
are modelled as lists of characters. -/
def arrowStep (gw : Grid) (i j : Nat) (actions : List Char)
    (p : Option (Nat × Nat) × Char) : List Char :=
  match p.1 with
  | none => actions
  | some (a, b) =>
    if getCell gw i j < getCell gw a b then
      let acts := actions ++ [p.2]
      if acts.length = 1 then acts ++ [' '] else acts
    else actions

/-- The `actions` string built by the inner loop of `add_arrows`, starting
from the empty string. -/
def arrowActions (gw : Grid) (i j : Nat) (dirs : List (Option (Nat × Nat) × Char)) :
    List Char :=
  dirs.foldl (arrowStep gw i j) []

/-- `GridWorldSolver.add_arrows`: terminal cells (tested against the
solver's own `self.world.shape`, here `hSelf × wSelf`) get `'G'`; every
other cell gets its `actions` string.  The result array is allocated with
`dtype='<U2'`, so each stored string keeps at most its first two
characters. -/
def add_arrows (cfg : Cfg) (hSelf wSelf : Nat) (gw : Grid) : List (List (List Char)) :=
  (List.range (rows gw)).map (fun i =>
    (List.range (cols gw)).map (fun j =>
      if isTerminal cfg hSelf wSelf i j then ['G']
      else (arrowActions gw i j (arrowDirs (rows gw) (cols gw) i j)).take 2))

/-- Cell `(i, j)` of an overlay produced by `add_arrows`. -/
def getOverlay (ov : List (List (List Char))) (i j : Nat) : List Char :=
  (ov.getD i []).getD j []

/-- The symbols of the in-grid strictly-greater directions in a direction
list, in scan order: the subsequence of symbols the `actions` loop appends. -/
def arrowHits (gw : Grid) (i j : Nat) (dirs : List (Option (Nat × Nat) × Char)) :
    List Char :=
  dirs.filterMap (fun p =>
    match p.1 with
    | none => none
    | some (a, b) => if getCell gw i j < getCell gw a b then some p.2 else none)

/-- The claim's measure: the symbols of the in-grid strictly-greater
directions of a cell, in the scan order up, down, left, right. -/
def greaterSymbols (gw : Grid) (i j : Nat) : List Char :=
  arrowHits gw i j (arrowDirs (rows gw) (cols gw) i j)

/-- How many directional symbols a rendered overlay cell holds. -/
def symbolCount (s : List Char) : Nat :=
  (s.filter (fun c => c == '^' || c == 'v' || c == '<' || c == '>')).length

/-! ### Access and shape lemmas -/

theorem getD_set_self {α : Type} (l : List α) (i : Nat) (v d : α) (h : i < l.length) :
    (l.set i v).getD i d = v := by
  simp [List.getD_eq_getElem?_getD, List.getElem?_set, h]

theorem getD_set_ne {α : Type} (l : List α) {i k : Nat} (v d : α) (h : k ≠ i) :
    (l.set i v).getD k d = l.getD k d := by
  simp [List.getD_eq_getElem?_getD, List.getElem?_set, Ne.symm h]

theorem rows_setCell (g : Grid) (i j : Nat) (v : ℚ) : rows (setCell g i j v) = rows g :=
  List.length_set ..

theorem getRow_setCell_ne (g : Grid) {i k : Nat} (j : Nat) (v : ℚ) (h : k ≠ i) :
    (setCell g i j v).getD k [] = g.getD k [] :=
  getD_set_ne _ _ _ h

theorem getRow_setCell_self (g : Grid) {i : Nat} (j : Nat) (v : ℚ) (h : i < g.length) :
    (setCell g i j v).getD i [] = (g.getD i []).set j v :=
  getD_set_self _ _ _ _ h

theorem getCell_setCell_ne (g : Grid) {i j a b : Nat} (v : ℚ) (h : ¬(a = i ∧ b = j)) :
    getCell (setCell g i j v) a b = getCell g a b := by
  unfold getCell
  by_cases ha : a = i
  · subst ha
    by_cases hl : a < g.length
    · rw [getRow_setCell_self g j v hl]
      exact getD_set_ne _ _ _ (fun hb => h ⟨rfl, hb⟩)
    · unfold setCell
      rw [List.set_eq_of_length_le (Nat.le_of_not_lt hl)]
  · rw [getRow_setCell_ne g j v ha]

theorem getCell_setCell_self (g : Grid) {i j : Nat} (v : ℚ)
    (hi : i < g.length) (hj : j < (g.getD i []).length) :
    getCell (setCell g i j v) i j = v := by
  unfold getCell
  rw [getRow_setCell_self g j v hi]
  exact getD_set_self _ _ _ _ hj

theorem wf_zeros (h w : Nat) : Wellformed (zeros h w) h w := by
  refine ⟨List.length_replicate .., fun k hk => ?_⟩
  rw [List.getD_eq_getElem _ _ (by simpa [zeros] using hk)]
  simp [zeros]

theorem wf_setCell {g : Grid} {h w : Nat} (hwf : Wellformed g h w) (i j : Nat) (v : ℚ) :
    Wellformed (setCell g i j v) h w := by
  obtain ⟨hlen, hrow⟩ := hwf
  refine ⟨by rw [← hlen]; exact List.length_set .., fun k hk => ?_⟩
  by_cases hki : k = i
  · subst hki
    by_cases hl : k < g.length
    · rw [getRow_setCell_self g j v hl, List.length_set]
      exact hrow k hk
    · unfold setCell
      rw [List.set_eq_of_length_le (Nat.le_of_not_lt hl)]
      exact hrow k hk
  · rw [getRow_setCell_ne g j v hki]
    exact hrow k hk

theorem getCell_updateCell_ne (cfg : Cfg) (h w : Nat) (g : Grid) {p : Nat × Nat}
    {a b : Nat} (hab : ¬(a = p.1 ∧ b = p.2)) :
    getCell (updateCell cfg h w g p) a b = getCell g a b := by
  unfold updateCell
  split
  · rfl
  · exact getCell_setCell_ne g _ hab

theorem wf_updateCell {g : Grid} {h w : Nat} (hwf : Wellformed g h w)
    (cfg : Cfg) (p : Nat × Nat) : Wellformed (updateCell cfg h w g p) h w := by
  unfold updateCell
  split
  · exact hwf
  · exact wf_setCell hwf ..

theorem wf_foldl {g : Grid} {h w : Nat} (hwf : Wellformed g h w)
    (cfg : Cfg) (L : List (Nat × Nat)) :
    Wellformed (L.foldl (updateCell cfg h w) g) h w := by
  induction L generalizing g with
  | nil => exact hwf
  | cons p L ih => exact ih (wf_updateCell hwf cfg p)

theorem getCell_foldl_not_mem (cfg : Cfg) (h w : Nat) {g : Grid}
    {L : List (Nat × Nat)} {a b : Nat} (hab : (a, b) ∉ L) :
    getCell (L.foldl (updateCell cfg h w) g) a b = getCell g a b := by
  induction L generalizing g with
  | nil => rfl
  | cons p L ih =>
    rw [List.foldl_cons, ih (fun hm => hab (List.mem_cons_of_mem p hm)),
      getCell_updateCell_ne cfg h w g]
    rintro ⟨rfl, rfl⟩
    exact hab (List.mem_cons_self ..)

/-! ### Row-major cell order -/

/-- `(a, b)` comes strictly before `(i, j)` in the row-major visiting order
of the two nested loops. -/
def Earlier (a b i j : Nat) : Prop :=
  a < i ∨ (a = i ∧ b < j)

instance (a b i j : Nat) : Decidable (Earlier a b i j) := by
  unfold Earlier
  infer_instance

theorem getCell_updateCell_write (cfg : Cfg) (h w : Nat) {g : Grid} {i j : Nat}
    (hnt : isTerminal cfg h w i j = false)
    (hi : i < g.length) (hj : j < (g.getD i []).length) :
    getCell (updateCell cfg h w g (i, j)) i j = v_pi cfg g (neighbors h w i j) := by
  rw [updateCell, hnt]
  simp only [Bool.false_eq_true, if_false]
  exact getCell_setCell_self g _ hi hj

theorem mem_cellOrder {h w : Nat} {p : Nat × Nat} :
    p ∈ cellOrder h w ↔ p.1 < h ∧ p.2 < w := by
  cases p with
  | mk a b =>
    simp only [cellOrder, List.mem_flatMap, List.mem_map, List.mem_range, Prod.mk.injEq]
    constructor
    · rintro ⟨i, hi, j, hj, rfl, rfl⟩
      exact ⟨hi, hj⟩
    · rintro ⟨ha, hb⟩
      exact ⟨a, ha, b, hb, rfl, rfl⟩

theorem nodup_cellOrder (h w : Nat) : (cellOrder h w).Nodup := by
  rw [cellOrder, List.nodup_flatMap]
  refine ⟨fun i _ => ?_, ?_⟩
  · exact (List.nodup_range w).map (fun x y hxy => by simpa using congrArg Prod.snd hxy)
  · refine (List.pairwise_lt_range h).imp ?_
    intro i i' hii p hp hp'
    simp only [Function.onFun, List.mem_map, List.mem_range] at hp hp'
    obtain ⟨j, _, rfl⟩ := hp
    obtain ⟨j', _, h2⟩ := hp'
    exact absurd (congrArg Prod.fst h2) (by simpa using (Nat.ne_of_lt hii).symm)

theorem cellOrder_split {h w i j : Nat} (hi : i < h) (hj : j < w) :
    ∃ L1 L2, cellOrder h w = L1 ++ (i, j) :: L2 ∧
      (∀ p : Nat × Nat, p ∈ L1 ↔ (p.1 < h ∧ p.2 < w ∧ Earlier p.1 p.2 i j)) := by
  have hrow : ∀ a : Nat, (List.range w).map (fun b => (a, b)) =
      (List.range' 0 j).map (fun b => (a, b)) ++ (a, j) ::
        (List.range' (j + 1) (w - (j + 1))).map (fun b => (a, b)) := by
    intro a
    rw [List.range_eq_range']
    have h1 : List.range' 0 w = List.range' 0 j ++ List.range' j (w - j) := by
      have hap := List.range'_append 0 j (w - j) 1
      simp only [Nat.one_mul, Nat.zero_add] at hap
      rw [Nat.sub_add_cancel (Nat.le_of_lt hj)] at hap
      exact hap.symm
    have h2 : List.range' j (w - j) = j :: List.range' (j + 1) (w - (j + 1)) := by
      have : w - j = (w - (j + 1)) + 1 := by omega
      rw [this, List.range'_succ]
    rw [h1, h2, List.map_append]
    rfl
  have hcol : List.range h = List.range i ++ i :: List.range' (i + 1) (h - (i + 1)) := by
    rw [List.range_eq_range', List.range_eq_range']
    have h1 : List.range' 0 h = List.range' 0 i ++ List.range' i (h - i) := by
      have hap := List.range'_append 0 i (h - i) 1
      simp only [Nat.one_mul, Nat.zero_add] at hap
      rw [Nat.sub_add_cancel (Nat.le_of_lt hi)] at hap
      exact hap.symm
    have h2 : List.range' i (h - i) = i :: List.range' (i + 1) (h - (i + 1)) := by
      have : h - i = (h - (i + 1)) + 1 := by omega
      rw [this, List.range'_succ]
    rw [h1, h2]
  refine ⟨(List.range i).flatMap (fun a => (List.range w).map (fun b => (a, b))) ++
      (List.range' 0 j).map (fun b => (i, b)),
    (List.range' (j + 1) (w - (j + 1))).map (fun b => (i, b)) ++
      (List.range' (i + 1) (h - (i + 1))).flatMap
        (fun a => (List.range w).map (fun b => (a, b))), ?_, ?_⟩
  · rw [cellOrder, hcol, List.flatMap_append]
    simp only [List.flatMap_cons, hrow i]
    simp [List.append_assoc]
  · intro p
    simp only [List.mem_append, List.mem_flatMap, List.mem_map, List.mem_range,
      List.mem_range'_1, Nat.zero_add, Earlier]
    constructor
    · rintro (⟨a, ha, b, hb, rfl⟩ | ⟨b, hb, rfl⟩)
      · exact ⟨Nat.lt_trans ha hi, hb, Or.inl ha⟩
      · exact ⟨hi, Nat.lt_trans hb.2 hj, Or.inr ⟨rfl, hb.2⟩⟩
    · rintro ⟨hph, hpw, hplt | ⟨hpe, hplt⟩⟩
      · exact Or.inl ⟨p.1, hplt, p.2, hpw, rfl⟩
      · refine Or.inr ⟨p.2, ⟨Nat.zero_le _, by simpa using hplt⟩, ?_⟩
        rw [← hpe]

theorem neighbors_inbounds {h w i j : Nat} (hi : i < h) (hj : j < w) :
    ∀ p ∈ neighbors h w i j, p.1 < h ∧ p.2 < w := by
  intro p hp
  simp only [neighbors, List.mem_cons, List.mem_singleton] at hp
  rcases hp with rfl | rfl | rfl | rfl | h
  · refine ⟨?_, hj⟩
    split <;> omega
  · refine ⟨?_, hj⟩
    split <;> omega
  · refine ⟨hi, ?_⟩
    split <;> omega
  · refine ⟨hi, ?_⟩
    split <;> omega
  · cases h

/-- C2 (amended): a sweep is an in-place (Gauss–Seidel) update, not a
synchronous one: the new value of a non-terminal cell `(i, j)` is `v_pi`
over its four neighbors where a neighbor earlier in row-major order
contributes its value from the current sweep (already updated within the
same sweep) and every other neighbor its value from before the sweep. -/
theorem sweep_mixed {cfg : Cfg} {g : Grid} {h w i j : Nat}
    (hwf : Wellformed g h w) (hi : i < h) (hj : j < w)
    (hnt : isTerminal cfg h w i j = false) :
    getCell (sweep cfg g) i j =
      (neighbors h w i j).foldl
        (fun total n => total + (1 / 4) * (cfg.r + cfg.g *
          (if Earlier n.1 n.2 i j then getCell (sweep cfg g) n.1 n.2
           else getCell g n.1 n.2))) 0 := by
  obtain ⟨hlen, hrowlen⟩ := hwf
  have hh : 0 < h := Nat.lt_of_le_of_lt (Nat.zero_le i) hi
  have hrows : rows g = h := hlen
  have hcols : cols g = w := hrowlen 0 hh
  obtain ⟨L1, L2, hsplit, hmemL1⟩ := cellOrder_split hi hj
  have hnd : (cellOrder h w).Nodup := nodup_cellOrder h w
  rw [hsplit] at hnd
  have hij_not_L2 : (i, j) ∉ L2 := by
    have := hnd.sublist (List.sublist_append_right L1 _)
    exact (List.nodup_cons.mp this).1
  have hL1_L2 : ∀ p ∈ L1, p ∉ ((i, j) :: L2) := fun p hp hq =>
    (List.disjoint_of_nodup_append hnd) hp hq
  have hsweep : sweep cfg g =
      ((i, j) :: L2).foldl (updateCell cfg h w) (L1.foldl (updateCell cfg h w) g) := by
    rw [sweep, hrows, hcols, hsplit, List.foldl_append]
  have hmid_wf : Wellformed (L1.foldl (updateCell cfg h w) g) h w :=
    wf_foldl ⟨hlen, hrowlen⟩ cfg L1
  -- the value written at (i, j)
  have hwrite : getCell (sweep cfg g) i j =
      v_pi cfg (L1.foldl (updateCell cfg h w) g) (neighbors h w i j) := by
    rw [hsweep, List.foldl_cons, getCell_foldl_not_mem cfg h w hij_not_L2]
    exact getCell_updateCell_write cfg h w hnt
      (by rw [hmid_wf.1]; exact hi) (by rw [hmid_wf.2 i hi]; exact hj)
  -- the mid grid agrees with the final sweep on earlier cells and with g elsewhere
  have hmid : ∀ a b : Nat, a < h → b < w →
      getCell (L1.foldl (updateCell cfg h w) g) a b =
        if Earlier a b i j then getCell (sweep cfg g) a b else getCell g a b := by
    intro a b ha hb
    by_cases he : Earlier a b i j
    · rw [if_pos he]
      have hmem : (a, b) ∈ L1 := (hmemL1 (a, b)).mpr ⟨ha, hb, he⟩
      rw [hsweep, getCell_foldl_not_mem cfg h w (hL1_L2 (a, b) hmem)]
    · rw [if_neg he]
      have hmem : (a, b) ∉ L1 := fun hm => he ((hmemL1 (a, b)).mp hm).2.2
      exact getCell_foldl_not_mem cfg h w hmem
  rw [hwrite, v_pi]
  refine List.foldl_ext _ _ 0 (fun t n hn => ?_)
  obtain ⟨hn1, hn2⟩ := neighbors_inbounds hi hj n hn
  rw [hmid n.1 n.2 hn1 hn2]

/-! ### Flattening and the delta computation -/

theorem length_flatten_wf {g : Grid} {h w : Nat} (hwf : Wellformed g h w) :
    (flatten g).length = h * w := by
  induction g generalizing h with
  | nil =>
    rw [← hwf.1]
    simp [flatten]
  | cons row rest ih =>
    obtain ⟨hlen, hrow⟩ := hwf
    have hh : h = rest.length + 1 := by simpa using hlen.symm
    subst hh
    have hrest : Wellformed rest rest.length w :=
      ⟨rfl, fun k hk => by simpa using hrow (k + 1) (by omega)⟩
    have hr0 : row.length = w := by simpa using hrow 0 (by omega)
    have ih2 : rest.flatten.length = rest.length * w := by
      simpa [flatten] using ih hrest
    show ((row :: rest).flatten).length = (rest.length + 1) * w
    rw [List.flatten_cons, List.length_append, hr0, ih2]
    ring

theorem getElem_flatten_wf {g : Grid} {h w : Nat} (hwf : Wellformed g h w) :
    ∀ k, k < h * w → (flatten g).getD k 0 = getCell g (k / w) (k % w) := by
  induction g generalizing h with
  | nil =>
    intro k hk
    rw [← hwf.1] at hk
    simp at hk
  | cons row rest ih =>
    intro k hk
    obtain ⟨hlen, hrow⟩ := hwf
    have hh : h = rest.length + 1 := by simpa using hlen.symm
    subst hh
    have hrest : Wellformed rest rest.length w :=
      ⟨rfl, fun m hm => by simpa using hrow (m + 1) (by omega)⟩
    have hr0 : row.length = w := by simpa using hrow 0 (by omega)
    have hw : 0 < w := by
      rcases Nat.eq_zero_or_pos w with h0 | h0
      · rw [h0, Nat.mul_zero] at hk
        exact absurd hk (Nat.not_lt_zero k)
      · exact h0
    show ((row :: rest).flatten).getD k 0 = getCell (row :: rest) (k / w) (k % w)
    rw [List.flatten_cons]
    by_cases hkw : k < w
    · rw [List.getD_append _ _ _ _ (by rw [hr0]; exact hkw),
        Nat.div_eq_of_lt hkw, Nat.mod_eq_of_lt hkw]
      rfl
    · push_neg at hkw
      rw [List.getD_append_right _ _ _ _ (by rw [hr0]; exact hkw), hr0]
      have hk' : k - w < rest.length * w := by
        rw [Nat.succ_mul] at hk
        omega
      have ih2 : rest.flatten.getD (k - w) 0 = getCell rest ((k - w) / w) ((k - w) % w) := by
        simpa [flatten] using ih hrest (k - w) hk'
      rw [ih2, Nat.div_eq_sub_div hw hkw, Nat.mod_eq_sub_mod hkw]
      rfl

theorem length_absDiffs {g g' : Grid} {h w : Nat}
    (hwf : Wellformed g h w) (hwf' : Wellformed g' h w) :
    (absDiffs g g').length = h * w - 1 := by
  rw [absDiffs, List.length_zipWith, List.length_tail, List.length_tail,
    length_flatten_wf hwf, length_flatten_wf hwf']
  simp

theorem mem_absDiffs {g g' : Grid} {h w : Nat}
    (hwf : Wellformed g h w) (hwf' : Wellformed g' h w) {x : ℚ} :
    x ∈ absDiffs g g' ↔
      ∃ i j, i < h ∧ j < w ∧ ¬(i = 0 ∧ j = 0) ∧
        x = |getCell g' i j - getCell g i j| := by
  have hlen := length_absDiffs hwf hwf'
  have hflat := length_flatten_wf hwf
  have hflat' := length_flatten_wf hwf'
  have hElem : ∀ m (hm : m < (absDiffs g g').length),
      (absDiffs g g')[m] =
        |getCell g' ((m + 1) / w) ((m + 1) % w) - getCell g ((m + 1) / w) ((m + 1) % w)| := by
    intro m hm
    have hm1 : m + 1 < h * w := by omega
    have hmt' : m < (flatten g').tail.length := by
      rw [List.length_tail, hflat']
      omega
    have hmt : m < (flatten g).tail.length := by
      rw [List.length_tail, hflat]
      omega
    show (List.zipWith (fun a b => |a - b|) (flatten g').tail (flatten g).tail)[m] = _
    rw [List.getElem_zipWith, List.getElem_tail, List.getElem_tail,
      ← List.getD_eq_getElem (flatten g') 0 (by rw [hflat']; omega),
      ← List.getD_eq_getElem (flatten g) 0 (by rw [hflat]; omega),
      getElem_flatten_wf hwf' (m + 1) hm1, getElem_flatten_wf hwf (m + 1) hm1]
  constructor
  · intro hx
    obtain ⟨m, hm, hxm⟩ := List.mem_iff_getElem.mp hx
    have hm1 : m + 1 < h * w := by omega
    have hw : 0 < w := by
      rcases Nat.eq_zero_or_pos w with h0 | h0
      · rw [h0, Nat.mul_zero] at hm1
        exact absurd hm1 (Nat.not_lt_zero _)
      · exact h0
    refine ⟨(m + 1) / w, (m + 1) % w, ?_, Nat.mod_lt _ hw, ?_, ?_⟩
    · exact Nat.div_lt_of_lt_mul (by rw [Nat.mul_comm]; exact hm1)
    · rintro ⟨hdiv, hmod⟩
      have hsplit : m + 1 = w * ((m + 1) / w) + (m + 1) % w := (Nat.div_add_mod ..).symm
      rw [hdiv, hmod] at hsplit
      simp at hsplit
    · rw [← hxm, hElem m hm]
  · rintro ⟨i, j, hi, hj, hnz, rfl⟩
    have hw : 0 < w := Nat.lt_of_le_of_lt (Nat.zero_le j) hj
    have hk : 1 ≤ j + i * w := by
      by_contra hc
      push_neg at hc
      have hj0 : j = 0 := by omega
      have hiw : i * w = 0 := by omega
      have hi0 : i = 0 := by
        rcases Nat.mul_eq_zero.mp hiw with h0 | h0
        · exact h0
        · omega
      exact hnz ⟨hi0, hj0⟩
    have hkm : j + i * w < h * w := by
      calc j + i * w < w + i * w := by omega
        _ = (i + 1) * w := by ring
        _ ≤ h * w := Nat.mul_le_mul_right w hi
    refine List.mem_iff_getElem.mpr ⟨j + i * w - 1, by omega, ?_⟩
    rw [hElem _ (by omega)]
    have h1 : j + i * w - 1 + 1 = j + i * w := by omega
    rw [h1, Nat.add_mul_div_right j i hw, Nat.add_mul_mod_self_right,
      Nat.div_eq_of_lt hj, Nat.mod_eq_of_lt hj, Nat.zero_add]

/-! ### The arrows loop -/

theorem arrowStep_none (gw : Grid) (i j : Nat) (acc : List Char) (c : Char) :
    arrowStep gw i j acc (none, c) = acc := rfl

theorem arrowStep_hit (gw : Grid) {i j a b : Nat} (acc : List Char) (c : Char)
    (hlt : getCell gw i j < getCell gw a b) :
    arrowStep gw i j acc (some (a, b), c) =
      if (acc ++ [c]).length = 1 then acc ++ [c] ++ [' '] else acc ++ [c] := by
  simp [arrowStep, hlt]

theorem arrowStep_miss (gw : Grid) {i j a b : Nat} (acc : List Char) (c : Char)
    (hlt : ¬ getCell gw i j < getCell gw a b) :
    arrowStep gw i j acc (some (a, b), c) = acc := by
  simp [arrowStep, hlt]

theorem arrowHits_cons_none (gw : Grid) (i j : Nat) (c : Char)
    (dirs : List (Option (Nat × Nat) × Char)) :
    arrowHits gw i j ((none, c) :: dirs) = arrowHits gw i j dirs := rfl

theorem arrowHits_cons_hit (gw : Grid) {i j a b : Nat} (c : Char)
    (dirs : List (Option (Nat × Nat) × Char))
    (hlt : getCell gw i j < getCell gw a b) :
    arrowHits gw i j ((some (a, b), c) :: dirs) = c :: arrowHits gw i j dirs := by
  simp [arrowHits, List.filterMap_cons, hlt]

theorem arrowHits_cons_miss (gw : Grid) {i j a b : Nat} (c : Char)
    (dirs : List (Option (Nat × Nat) × Char))
    (hlt : ¬ getCell gw i j < getCell gw a b) :
    arrowHits gw i j ((some (a, b), c) :: dirs) = arrowHits gw i j dirs := by
  simp [arrowHits, List.filterMap_cons, hlt]

theorem foldl_arrowStep_of_two_le (gw : Grid) (i j : Nat)
    (dirs : List (Option (Nat × Nat) × Char)) :
    ∀ acc : List Char, 2 ≤ acc.length →
      dirs.foldl (arrowStep gw i j) acc = acc ++ arrowHits gw i j dirs := by
  induction dirs with
  | nil => intro acc _; simp [arrowHits]
  | cons p dirs ih =>
    obtain ⟨o, c⟩ := p
    intro acc hacc
    rw [List.foldl_cons]
    match o with
    | none =>
      rw [arrowStep_none, arrowHits_cons_none]
      exact ih acc hacc
    | some (a, b) =>
      by_cases hlt : getCell gw i j < getCell gw a b
      · rw [arrowStep_hit gw acc c hlt,
          if_neg (by simp only [List.length_append, List.length_singleton]; omega),
          arrowHits_cons_hit gw c dirs hlt,
          ih (acc ++ [c]) (by simp only [List.length_append, List.length_singleton]; omega)]
        simp
      · rw [arrowStep_miss gw acc c hlt, arrowHits_cons_miss gw c dirs hlt]
        exact ih acc hacc

theorem arrowActions_eq (gw : Grid) (i j : Nat)
    (dirs : List (Option (Nat × Nat) × Char)) :
    arrowActions gw i j dirs =
      match arrowHits gw i j dirs with
      | [] => []
      | c :: rest => c :: ' ' :: rest := by
  rw [arrowActions]
  induction dirs with
  | nil => rfl
  | cons p dirs ih =>
    obtain ⟨o, c⟩ := p
    rw [List.foldl_cons]
    match o with
    | none =>
      rw [arrowStep_none, arrowHits_cons_none]
      exact ih
    | some (a, b) =>
      by_cases hlt : getCell gw i j < getCell gw a b
      · rw [arrowStep_hit gw [] c hlt, if_pos (by simp), arrowHits_cons_hit gw c dirs hlt,
          foldl_arrowStep_of_two_le gw i j dirs ([] ++ [c] ++ [' ']) (by simp)]
        simp
      · rw [arrowStep_miss gw [] c hlt, arrowHits_cons_miss gw c dirs hlt]
        exact ih

theorem arrowActions_take_two (gw : Grid) (i j : Nat)
    (dirs : List (Option (Nat × Nat) × Char)) :
    (arrowActions gw i j dirs).take 2 =
      match arrowHits gw i j dirs with
      | [] => []
      | c :: _ => [c, ' '] := by
  rw [arrowActions_eq]
  match arrowHits gw i j dirs with
  | [] => rfl
  | c :: rest => simp

theorem getOverlay_add_arrows (cfg : Cfg) (hS wS : Nat) (gw : Grid) {i j : Nat}
    (hi : i < rows gw) (hj : j < cols gw) :
    getOverlay (add_arrows cfg hS wS gw) i j =
      if isTerminal cfg hS wS i j then ['G']
      else (arrowActions gw i j (arrowDirs (rows gw) (cols gw) i j)).take 2 := by
  have hrow : (add_arrows cfg hS wS gw).getD i [] =
      (List.range (cols gw)).map (fun j =>
        if isTerminal cfg hS wS i j then ['G']
        else (arrowActions gw i j (arrowDirs (rows gw) (cols gw) i j)).take 2) := by
    rw [add_arrows, List.getD_eq_getElem _ _ (by simpa using hi), List.getElem_map,
      List.getElem_range]
  rw [getOverlay, hrow, List.getD_eq_getElem _ _ (by simpa using hj), List.getElem_map,
    List.getElem_range]

theorem cols_setCell (g : Grid) (i j : Nat) (v : ℚ) : cols (setCell g i j v) = cols g := by
  unfold cols setCell
  by_cases hp : (0 : Nat) = i
  · by_cases hl : i < g.length
    · rw [← hp] at hl ⊢
      rw [getD_set_self _ _ _ _ hl, List.length_set]
    · rw [List.set_eq_of_length_le (Nat.le_of_not_lt hl)]
  · rw [getD_set_ne _ _ _ hp]

theorem rows_foldl (cfg : Cfg) (h w : Nat) (L : List (Nat × Nat)) :
    ∀ g : Grid, rows (L.foldl (updateCell cfg h w) g) = rows g := by
  induction L with
  | nil => intro g; rfl
  | cons p L ih =>
    intro g
    rw [List.foldl_cons, ih]
    unfold updateCell
    split
    · rfl
    · exact rows_setCell ..

theorem cols_foldl (cfg : Cfg) (h w : Nat) (L : List (Nat × Nat)) :
    ∀ g : Grid, cols (L.foldl (updateCell cfg h w) g) = cols g := by
  induction L with
  | nil => intro g; rfl
  | cons p L ih =>
    intro g
    rw [List.foldl_cons, ih]
    unfold updateCell
    split
    · rfl
    · exact cols_setCell ..

instance instDecEqExcept {ε α : Type} [DecidableEq ε] [DecidableEq α] :
    DecidableEq (Except ε α) := fun x y =>
  match x, y with
  | Except.ok a, Except.ok b =>
    if h : a = b then Decidable.isTrue (by rw [h])
    else Decidable.isFalse (fun hc => h (Except.ok.inj hc))
  | Except.error e, Except.error f =>
    if h : e = f then Decidable.isTrue (by rw [h])
    else Decidable.isFalse (fun hc => h (Except.error.inj hc))
  | Except.ok _, Except.error _ => Decidable.isFalse (fun hc => Except.noConfusion hc)
  | Except.error _, Except.ok _ => Decidable.isFalse (fun hc => Except.noConfusion hc)

/-! ### Claim theorems -/

/-- C1: `evaluate_state_action` (`v_pi`), applied to the four resolved
neighbor coordinates of a state (off-grid moves resolving to the state
itself), returns the uniform-policy Bellman expectation value: the sum
over the four neighbors of `(1/4) * (step_reward + discount * V(neighbor))`
read from the current grid.  As a plain function of the grid snapshot it
can modify neither the grid nor any other solver state. -/
theorem v_pi_uniform_bellman (cfg : Cfg) (world : Grid) (h w i j : Nat) :
    v_pi cfg world (neighbors h w i j) =
      (1 / 4) * (cfg.r + cfg.g * getCell world (if i = 0 then i else i - 1) j) +
      (1 / 4) * (cfg.r + cfg.g * getCell world (if i + 1 > h - 1 then i else i + 1) j) +
      (1 / 4) * (cfg.r + cfg.g * getCell world i (if j = 0 then j else j - 1)) +
      (1 / 4) * (cfg.r + cfg.g * getCell world i (if j + 1 > w - 1 then j else j + 1)) := by
  simp only [v_pi, neighbors, List.foldl_cons, List.foldl_nil]
  ring

/-- C2 (counterexample): a single sweep on the all-zero 2x2 grid does not
compute cell (0,1) from the previous sweep's values: the in-place update
reads the already-updated value -1 at (0,0) and writes -5/4, while the
synchronous value `v_pi` over the pre-sweep grid is -1. -/
theorem sweep_not_synchronous :
    getCell (sweep ⟨-1, 1, 1 / 100000, TerminalMode.last, 0⟩ (zeros 2 2)) 0 1 ≠
      v_pi ⟨-1, 1, 1 / 100000, TerminalMode.last, 0⟩ (zeros 2 2) (neighbors 2 2 0 1) := by
  decide

/-- C2 witness: the amended characterization evaluated on the all-zero 2x2
grid at cell (0,1), whose left neighbor (0,0) is earlier in row-major
order and therefore contributes its already-updated value. -/
theorem sweep_mixed_witness :
    getCell (sweep ⟨-1, 1, 1 / 100000, TerminalMode.last, 0⟩ (zeros 2 2)) 0 1 =
      (neighbors 2 2 0 1).foldl
        (fun total n => total + (1 / 4) * ((-1 : ℚ) + 1 *
          (if Earlier n.1 n.2 0 1 then
            getCell (sweep ⟨-1, 1, 1 / 100000, TerminalMode.last, 0⟩ (zeros 2 2)) n.1 n.2
           else getCell (zeros 2 2) n.1 n.2))) 0 :=
  sweep_mixed (wf_zeros 2 2) (by decide) (by decide) (by decide)

/-- C3: terminal cells (the bottom-right cell always, additionally the
top-left cell when `terminals == 'first_and_last'`) are never changed by a
sweep, and after any number of sweeps from the zero-initialized world they
still hold their initial value 0. -/
theorem terminal_cells_invariant (cfg : Cfg) (h w i j : Nat)
    (hterm : isTerminal cfg h w i j = true) :
    (∀ g : Grid, rows g = h → cols g = w →
      getCell (sweep cfg g) i j = getCell g i j) ∧
    ∀ n : Nat, getCell (Nat.iterate (sweep cfg) n (zeros h w)) i j = 0 := by
  have key : ∀ (L : List (Nat × Nat)) (g : Grid),
      getCell (L.foldl (updateCell cfg h w) g) i j = getCell g i j := by
    intro L
    induction L with
    | nil => intro g; rfl
    | cons p L ih =>
      intro g
      rw [List.foldl_cons, ih]
      by_cases hp : i = p.1 ∧ j = p.2
      · obtain ⟨hp1, hp2⟩ := hp
        rw [updateCell, ← hp1, ← hp2, hterm]
        simp
      · exact getCell_updateCell_ne cfg h w g hp
  have hzero : ∀ a b : Nat, getCell (zeros h w) a b = 0 := by
    intro a b
    have hr : (zeros h w).getD a [] = [] ∨ (zeros h w).getD a [] = List.replicate w 0 := by
      by_cases ha : a < h
      · right
        rw [List.getD_eq_getElem _ _ (by simpa [zeros] using ha)]
        simp [zeros]
      · left
        rw [List.getD_eq_default _ _ (by simpa [zeros] using Nat.le_of_not_lt ha)]
    unfold getCell
    rcases hr with hr | hr <;> rw [hr]
    · rfl
    · by_cases hb : b < w
      · rw [List.getD_eq_getElem _ _ (by simpa using hb)]
        simp
      · rw [List.getD_eq_default _ _ (by simpa using Nat.le_of_not_lt hb)]
  have hsweep_inv : ∀ g : Grid, rows g = h → cols g = w →
      getCell (sweep cfg g) i j = getCell g i j := by
    intro g hr hc
    rw [sweep, hr, hc]
    exact key _ g
  refine ⟨hsweep_inv, fun n => ?_⟩
  by_cases hh : h = 0
  · subst hh
    have hz : zeros 0 w = ([] : Grid) := rfl
    rw [hz, Function.iterate_fixed (by rfl) n]
    rfl
  · have hrows : ∀ g : Grid, rows (sweep cfg g) = rows g := by
      intro g
      rw [sweep]
      exact rows_foldl ..
    have hcols : ∀ g : Grid, cols (sweep cfg g) = cols g := by
      intro g
      rw [sweep]
      exact cols_foldl ..
    have hshape : ∀ n : Nat,
        rows (Nat.iterate (sweep cfg) n (zeros h w)) = h ∧
        cols (Nat.iterate (sweep cfg) n (zeros h w)) = w := by
      intro n
      induction n with
      | zero =>
        refine ⟨List.length_replicate .., ?_⟩
        show (List.getD (zeros h w) 0 []).length = w
        rw [List.getD_eq_getElem _ _ (by simpa [zeros] using Nat.pos_of_ne_zero hh)]
        simp [zeros]
      | succ n ih =>
        rw [Function.iterate_succ_apply']
        exact ⟨(hrows _).trans ih.1, (hcols _).trans ih.2⟩
    induction n with
    | zero => exact hzero i j
    | succ n ih =>
      rw [Function.iterate_succ_apply',
        hsweep_inv _ (hshape n).1 (hshape n).2]
      exact ih

/-- C3 witness: in the first-and-last configuration the top-left cell still
holds 0 after three sweeps on a 4x4 world. -/
theorem terminal_cells_invariant_witness :
    getCell (Nat.iterate (sweep ⟨-1, 1, 1 / 100000, TerminalMode.first_and_last, 0⟩) 3
      (zeros 4 4)) 0 0 = 0 :=
  (terminal_cells_invariant ⟨-1, 1, 1 / 100000, TerminalMode.first_and_last, 0⟩
    4 4 0 0 (by decide)).2 3

/-- C4 (code bug): in convergence mode with `theta = 2` on a 2x2 world, the
loop performs exactly one sweep (the returned grid is the one-sweep grid,
distinct from the two-sweep grid) yet reports an iteration count of 2:
`calc_mini_gridworld` prints `i + 1` after `i` sweeps. -/
theorem calc_reports_sweeps_plus_one :
    calc_mini_gridworld ⟨-1, 1, 2, TerminalMode.last, 0⟩ 10 (zeros 2 2) =
      Except.ok (Nat.iterate (sweep ⟨-1, 1, 2, TerminalMode.last, 0⟩) 1 (zeros 2 2), 2) ∧
    Nat.iterate (sweep ⟨-1, 1, 2, TerminalMode.last, 0⟩) 1 (zeros 2 2) ≠
      Nat.iterate (sweep ⟨-1, 1, 2, TerminalMode.last, 0⟩) 2 (zeros 2 2) := by
  decide

/-- C5: with a positive `iterations`, `calc_mini_gridworld` performs
exactly that many sweeps, reports exactly that iteration count, and never
consults the convergence delta or threshold: the result is unchanged under
any replacement of `theta`. -/
theorem calc_fixed_iterations (cfg : Cfg) (fuel : Nat) (g : Grid) (n : Nat)
    (hn : cfg.iterations = n) (hpos : 0 < n) :
    calc_mini_gridworld cfg fuel g = Except.ok (Nat.iterate (sweep cfg) n g, n) ∧
    ∀ t : ℚ, calc_mini_gridworld ⟨cfg.r, cfg.g, t, cfg.terminals, cfg.iterations⟩ fuel g =
      Except.ok (Nat.iterate (sweep cfg) n g, n) := by
  have hne : ¬ cfg.iterations = 0 := by omega
  have hsw : sweep ⟨cfg.r, cfg.g, 0, cfg.terminals, cfg.iterations⟩ = sweep cfg := rfl
  have hrep : (n - 1) + 1 = n := by omega
  refine ⟨?_, fun t => ?_⟩
  · rw [calc_mini_gridworld, if_neg hne, hn, hrep]
  · rw [calc_mini_gridworld]
    show (if cfg.iterations = 0 then _ else _) = _
    rw [if_neg hne]
    show Except.ok (Nat.iterate (sweep cfg) cfg.iterations g, cfg.iterations - 1 + 1) = _
    rw [hn, hrep]

/-- C5 witness: three fixed sweeps on the 2x2 world report count 3, with
`theta = 7` in place of the default leaving the result unchanged. -/
theorem calc_fixed_iterations_witness :
    calc_mini_gridworld ⟨-1, 1, 1 / 100000, TerminalMode.last, 3⟩ 5 (zeros 2 2) =
      Except.ok
        (Nat.iterate (sweep ⟨-1, 1, 1 / 100000, TerminalMode.last, 3⟩) 3 (zeros 2 2), 3) ∧
    calc_mini_gridworld ⟨-1, 1, 7, TerminalMode.last, 3⟩ 5 (zeros 2 2) =
      Except.ok
        (Nat.iterate (sweep ⟨-1, 1, 1 / 100000, TerminalMode.last, 3⟩) 3 (zeros 2 2), 3) :=
  ⟨(calc_fixed_iterations ⟨-1, 1, 1 / 100000, TerminalMode.last, 3⟩ 5 (zeros 2 2) 3
      rfl (by decide)).1,
    (calc_fixed_iterations ⟨-1, 1, 1 / 100000, TerminalMode.last, 3⟩ 5 (zeros 2 2) 3
      rfl (by decide)).2 7⟩

/-- C6: in convergence mode with `terminals == 'last'`, `iterate` returns
the maximum absolute per-cell difference between the grid after the sweep
and the grid before it, over every cell other than (0, 0) — the cell
excluded as the first index of the row-major flattening. -/
theorem iterate_delta_max (cfg : Cfg) (g : Grid) (h w : Nat)
    (hit : cfg.iterations = 0) (hterm : cfg.terminals = TerminalMode.last)
    (hwf : Wellformed g h w) (hsz : 2 ≤ h * w) :
    ∃ d : ℚ, (iterate cfg g).2 = some d ∧
      (∀ i j, i < h → j < w → ¬(i = 0 ∧ j = 0) →
        |getCell (sweep cfg g) i j - getCell g i j| ≤ d) ∧
      (∃ i j, i < h ∧ j < w ∧ ¬(i = 0 ∧ j = 0) ∧
        |getCell (sweep cfg g) i j - getCell g i j| = d) := by
  have hh : 0 < h := by
    rcases Nat.eq_zero_or_pos h with h0 | h0
    · rw [h0, Nat.zero_mul] at hsz
      omega
    · exact h0
  have hwf' : Wellformed (sweep cfg g) h w := by
    have hr : rows g = h := hwf.1
    have hc : cols g = w := hwf.2 0 hh
    rw [sweep, hr, hc]
    exact wf_foldl hwf cfg _
  have hlen : (absDiffs g (sweep cfg g)).length = h * w - 1 :=
    length_absDiffs hwf hwf'
  obtain ⟨d, hd⟩ : ∃ d, (absDiffs g (sweep cfg g)).max? = some d := by
    cases hmax : (absDiffs g (sweep cfg g)).max? with
    | none =>
      have := List.max?_eq_none_iff.mp hmax
      rw [this] at hlen
      simp at hlen
      omega
    | some d => exact ⟨d, rfl⟩
  have hchar := (@List.max?_eq_some_iff ℚ d _ _ ⟨@fun _ _ h1 h2 => le_antisymm h1 h2⟩
    le_refl max_choice (fun _ _ _ => max_le_iff) (absDiffs g (sweep cfg g))).mp hd
  refine ⟨d, ?_, ?_, ?_⟩
  · rw [iterate]
    simp only [hit, if_pos]
    exact hd
  · intro i j hi hj hnz
    exact hchar.2 _ ((mem_absDiffs hwf hwf').mpr ⟨i, j, hi, hj, hnz, rfl⟩)
  · obtain ⟨i, j, hi, hj, hnz, hx⟩ := (mem_absDiffs hwf hwf').mp hchar.1
    exact ⟨i, j, hi, hj, hnz, hx.symm⟩

/-- C6 witness: the delta characterization evaluated for one sweep on the
all-zero 2x2 world in convergence mode. -/
theorem iterate_delta_max_witness :
    ∃ d : ℚ, (iterate ⟨-1, 1, 1 / 100000, TerminalMode.last, 0⟩ (zeros 2 2)).2 = some d ∧
      (∀ i j, i < 2 → j < 2 → ¬(i = 0 ∧ j = 0) →
        |getCell (sweep ⟨-1, 1, 1 / 100000, TerminalMode.last, 0⟩ (zeros 2 2)) i j -
          getCell (zeros 2 2) i j| ≤ d) ∧
      (∃ i j, i < 2 ∧ j < 2 ∧ ¬(i = 0 ∧ j = 0) ∧
        |getCell (sweep ⟨-1, 1, 1 / 100000, TerminalMode.last, 0⟩ (zeros 2 2)) i j -
          getCell (zeros 2 2) i j| = d) :=
  iterate_delta_max ⟨-1, 1, 1 / 100000, TerminalMode.last, 0⟩ (zeros 2 2) 2 2
    rfl rfl (wf_zeros 2 2) (by decide)

/-- C7 (counterexample): for the 3x3 grid with only the bottom-right cell
terminal, `step_reward = -1`, `discount = 1`, a single sweep from the
all-zero grid leaves the center cell at -13/8, not -1: the in-place sweep
has already updated the center's up and left neighbors to -5/4. -/
theorem center_after_one_sweep_ne :
    getCell (sweep ⟨-1, 1, 1 / 100000, TerminalMode.last, 0⟩ (zeros 3 3)) 1 1 ≠ -1 := by
  decide

/-- C7 (amended): the center cell of the 3x3 grid after a single in-place
sweep from the all-zero grid is exactly -13/8 = -1.625. -/
theorem center_after_one_sweep :
    getCell (sweep ⟨-1, 1, 1 / 100000, TerminalMode.last, 0⟩ (zeros 3 3)) 1 1 = -13 / 8 := by
  decide

/-- C9 (counterexample): on the 2x2 value grid [[0,1],[1,0]] the
non-terminal cell (0,0) has two strictly-greater in-grid neighbors (down
and right), yet the overlay cell `add_arrows` stores holds exactly one
directional symbol: the `dtype='<U2'` array truncates the built string
`"v >"` to `"v "`. -/
theorem add_arrows_truncates :
    symbolCount (getOverlay
      (add_arrows ⟨-1, 1, 1 / 100000, TerminalMode.last, 0⟩ 2 2 [[0, 1], [1, 0]]) 0 0) = 1 ∧
    (greaterSymbols [[0, 1], [1, 0]] 0 0).length = 2 ∧
    symbolCount (getOverlay
        (add_arrows ⟨-1, 1, 1 / 100000, TerminalMode.last, 0⟩ 2 2 [[0, 1], [1, 0]]) 0 0) ≠
      (greaterSymbols [[0, 1], [1, 0]] 0 0).length := by
  decide

/-- C9 (amended): `add_arrows` marks a terminal cell with the goal symbol
`G`; every other in-bounds cell holds the symbol of its first
strictly-greater in-grid direction (scanning up, down, left, right) padded
with a space — later strictly-greater directions are cut off by the
two-character cell width — so the cell holds `min 1 k` directional
symbols when the cell has `k` strictly-greater in-grid neighbors. -/
theorem add_arrows_cell_spec (cfg : Cfg) (gw : Grid) {h w i j : Nat}
    (hwf : Wellformed gw h w) (hi : i < h) (hj : j < w) :
    getOverlay (add_arrows cfg h w gw) i j =
      (if isTerminal cfg h w i j then ['G']
       else
         match greaterSymbols gw i j with
         | [] => []
         | c :: _ => [c, ' ']) ∧
    (isTerminal cfg h w i j = false →
      symbolCount (getOverlay (add_arrows cfg h w gw) i j) =
        min 1 (greaterSymbols gw i j).length) := by
  have hr : rows gw = h := hwf.1
  have hc : cols gw = w := hwf.2 0 (Nat.lt_of_le_of_lt (Nat.zero_le i) hi)
  have hov := getOverlay_add_arrows cfg h w gw (i := i) (j := j)
    (by rw [hr]; exact hi) (by rw [hc]; exact hj)
  rw [arrowActions_take_two] at hov
  have hgs : greaterSymbols gw i j =
      arrowHits gw i j (arrowDirs (rows gw) (cols gw) i j) := rfl
  have hsym : ∀ c ∈ arrowHits gw i j (arrowDirs (rows gw) (cols gw) i j),
      c = '^' ∨ c = 'v' ∨ c = '<' ∨ c = '>' := by
    intro c hcm
    obtain ⟨p, hp, hfp⟩ := List.mem_filterMap.mp hcm
    have hp2 : c = p.2 := by
      rcases hq : p.1 with _ | q
      · rw [hq] at hfp
        cases hfp
      · obtain ⟨a, b⟩ := q
        rw [hq] at hfp
        by_cases hlt : getCell gw i j < getCell gw a b
        · simp only [hlt, if_pos] at hfp
          exact (Option.some.inj hfp).symm
        · simp only [hlt, if_neg, if_false] at hfp
          cases hfp
    simp only [arrowDirs, List.mem_cons, List.not_mem_nil, or_false] at hp
    rcases hp with h1 | h1 | h1 | h1 <;> rw [hp2, h1]
    · exact Or.inl rfl
    · exact Or.inr (Or.inl rfl)
    · exact Or.inr (Or.inr (Or.inl rfl))
    · exact Or.inr (Or.inr (Or.inr rfl))
  refine ⟨by rw [hov, hgs], fun hnt => ?_⟩
  rw [hov, hnt, hgs]
  simp only [Bool.false_eq_true, if_false]
  rcases hhits : arrowHits gw i j (arrowDirs (rows gw) (cols gw) i j) with _ | ⟨c, rest⟩
  · rfl
  · have hcarrow := hsym c (by rw [hhits]; exact List.mem_cons_self ..)
    show symbolCount [c, ' '] = min 1 (c :: rest).length
    have hone : symbolCount [c, ' '] = 1 := by
      rcases hcarrow with rfl | rfl | rfl | rfl <;> rfl
    rw [hone, List.length_cons]
    omega

/-- C9 witness: the amended characterization evaluated on the 2x2 grid
[[0,1],[1,0]] at the non-terminal cell (0,0), whose first strictly-greater
direction is down. -/
theorem add_arrows_cell_spec_witness :
    getOverlay (add_arrows ⟨-1, 1, 1 / 100000, TerminalMode.last, 0⟩ 2 2
        [[0, 1], [1, 0]]) 0 0 =
      (if isTerminal ⟨-1, 1, 1 / 100000, TerminalMode.last, 0⟩ 2 2 0 0 then ['G']
       else
         match greaterSymbols [[0, 1], [1, 0]] 0 0 with
         | [] => []
         | c :: _ => [c, ' ']) ∧
    (isTerminal ⟨-1, 1, 1 / 100000, TerminalMode.last, 0⟩ 2 2 0 0 = false →
      symbolCount (getOverlay (add_arrows ⟨-1, 1, 1 / 100000, TerminalMode.last, 0⟩ 2 2
          [[0, 1], [1, 0]]) 0 0) =
        min 1 (greaterSymbols [[0, 1], [1, 0]] 0 0).length) :=
  add_arrows_cell_spec ⟨-1, 1, 1 / 100000, TerminalMode.last, 0⟩ [[0, 1], [1, 0]]
    ⟨rfl, by decide⟩ (by decide) (by decide)

/-- The value grid after 50 in-place sweeps in the 4x4 first-and-last
configuration with reward -1 and discount 1, starting from zeros; an
externally computed table certified against `sweep` by a lemma below. -/
def grid50 : Grid :=
  [[0,
    ((-1387360240360659301320389903890629409088053533614087029364623 : ℚ) / 100433627766186892221372630771322662657637687111424552206336),
    ((-7927094553903180175087274877147683267608236113057843564157283 : ℚ) / 401734511064747568885490523085290650630550748445698208825344),
    ((-34878921062805702146825763019232504957506689854680334490786267 : ℚ) / 1606938044258990275541962092341162602522202993782792835301376)],
   [((-1387360240360659301320389903890629409088053533614087029364623 : ℚ) / 100433627766186892221372630771322662657637687111424552206336),
    ((-1784845001960774912620790860469654721236100041365034283692413 : ℚ) / 100433627766186892221372630771322662657637687111424552206336),
    ((-31739887167751547357636991859665981002888216716496628265910717 : ℚ) / 1606938044258990275541962092341162602522202993782792835301376),
    ((-63488896095326914168595137650436354107132055970926861872868639 : ℚ) / 3213876088517980551083924184682325205044405987565585670602752)],
   [((-7927094553903180175087274877147683267608236113057843564157283 : ℚ) / 401734511064747568885490523085290650630550748445698208825344),
    ((-31739887167751547357636991859665981002888216716496628265910717 : ℚ) / 1606938044258990275541962092341162602522202993782792835301376),
    ((-57176616823717430077023182329822716789003727568329486045214243 : ℚ) / 3213876088517980551083924184682325205044405987565585670602752),
    ((-88983362204006035393279274644968596439227808609026617408947719 : ℚ) / 6427752177035961102167848369364650410088811975131171341205504)],
   [((-34878921062805702146825763019232504957506689854680334490786267 : ℚ) / 1606938044258990275541962092341162602522202993782792835301376),
    ((-63488896095326914168595137650436354107132055970926861872868639 : ℚ) / 3213876088517980551083924184682325205044405987565585670602752),
    ((-88983362204006035393279274644968596439227808609026617408947719 : ℚ) / 6427752177035961102167848369364650410088811975131171341205504),
    0]]

/-- The value grid after 100 in-place sweeps in the 4x4 first-and-last
configuration with reward -1 and discount 1, starting from zeros; an
externally computed table certified against `sweep` by a lemma below. -/
def grid100 : Grid :=
  [[0,
    ((-2259090729552815475232422598791666871958021283417513494235732706406310110064439548644321276410972681405131983270459758083 : ℚ) / 161390617380431786853494948250188242145606612051826469551916209783790476376052574664352834580008614464743948248296718336),
    ((-12909076183970901463388826098356868592593920549591414802313153290852479632789027444860291549651620379827360565777506134791 : ℚ) / 645562469521727147413979793000752968582426448207305878207664839135161905504210298657411338320034457858975792993186873344),
    ((-56799929251609356202013599120630979895103458019293817093357132673345633200241731706224452247068772421004348328804913961931 : ℚ) / 2582249878086908589655919172003011874329705792829223512830659356540647622016841194629645353280137831435903171972747493376)],
   [((-2259090729552815475232422598791666871958021283417513494235732706406310110064439548644321276410972681405131983270459758083 : ℚ) / 161390617380431786853494948250188242145606612051826469551916209783790476376052574664352834580008614464743948248296718336),
    ((-2904567363062468208641777014343933756056935542128708091812087766354680233127777576262588441915588143319423103364275958831 : ℚ) / 161390617380431786853494948250188242145606612051826469551916209783790476376052574664352834580008614464743948248296718336),
    ((-51636941150528457185567787483464552443215629154086434649714531188393156109634499180934282593797047460804698102142463601485 : ℚ) / 2582249878086908589655919172003011874329705792829223512830659356540647622016841194629645353280137831435903171972747493376),
    ((-103274066541443999194150955704211335262983718943923598427012730733494408192686939194420951472937858588574828120948852329601 : ℚ) / 5164499756173817179311838344006023748659411585658447025661318713081295244033682389259290706560275662871806343945494986752)],
   [((-12909076183970901463388826098356868592593920549591414802313153290852479632789027444860291549651620379827360565777506134791 : ℚ) / 645562469521727147413979793000752968582426448207305878207664839135161905504210298657411338320034457858975792993186873344),
    ((-51636941150528457185567787483464552443215629154086434649714531188393156109634499180934282593797047460804698102142463601485 : ℚ) / 2582249878086908589655919172003011874329705792829223512830659356540647622016841194629645353280137831435903171972747493376),
    ((-92947399339221219153421169550365525841343690234439839930232670678531754694647777823605383994884244032664051584920016004039 : ℚ) / 5164499756173817179311838344006023748659411585658447025661318713081295244033682389259290706560275662871806343945494986752),
    ((-72292845442599594160475641519097713849475588627596785742401079454616487636357159770471779920779261772675299839828740778063 : ℚ) / 5164499756173817179311838344006023748659411585658447025661318713081295244033682389259290706560275662871806343945494986752)],
   [((-56799929251609356202013599120630979895103458019293817093357132673345633200241731706224452247068772421004348328804913961931 : ℚ) / 2582249878086908589655919172003011874329705792829223512830659356540647622016841194629645353280137831435903171972747493376),
    ((-103274066541443999194150955704211335262983718943923598427012730733494408192686939194420951472937858588574828120948852329601 : ℚ) / 5164499756173817179311838344006023748659411585658447025661318713081295244033682389259290706560275662871806343945494986752),
    ((-72292845442599594160475641519097713849475588627596785742401079454616487636357159770471779920779261772675299839828740778063 : ℚ) / 5164499756173817179311838344006023748659411585658447025661318713081295244033682389259290706560275662871806343945494986752),
    0]]


/-- The first-and-last 4x4 configuration of the C8 scenario. -/
def cfg8 : Cfg := ⟨-1, 1, 1 / 100000, TerminalMode.first_and_last, 100⟩

set_option maxRecDepth 400000 in
theorem sweep50_from_zeros :
    Nat.iterate (sweep cfg8) 50 (zeros 4 4) = grid50 := by
  decide

set_option maxRecDepth 400000 in
theorem sweep50_from_grid50 :
    Nat.iterate (sweep cfg8) 50 grid50 = grid100 := by
  decide

theorem sweep100_from_zeros :
    Nat.iterate (sweep cfg8) 100 (zeros 4 4) = grid100 := by
  have h : (100 : Nat) = 50 + 50 := rfl
  rw [h, Function.iterate_add_apply, sweep50_from_zeros, sweep50_from_grid50]

theorem calc100_ok :
    calc_mini_gridworld cfg8 1 (zeros 4 4) = Except.ok (grid100, 100) := by
  rw [calc_mini_gridworld, if_neg (by decide)]
  show Except.ok (Nat.iterate (sweep cfg8) 100 (zeros 4 4), 100) = _
  rw [sweep100_from_zeros]

/-- C8 (counterexample): running the solver on the 4x4 grid with
`terminals = 'first_and_last'`, `rewards = -1`, `gamma = 1` and
`iterations = 100` yields the value grid `grid100`, which is not
point-symmetric: cells (0,1) and (3,2) differ (by about 3.8e-4, a residual
of the in-place sweep order that the one-decimal display hides). -/
theorem solver_100_iterations_not_symmetric :
    calc_mini_gridworld cfg8 1 (zeros 4 4) = Except.ok (grid100, 100) ∧
    getCell grid100 0 1 ≠ getCell grid100 3 2 :=
  ⟨calc100_ok, by decide⟩

/-- C8 (amended): the 100-iteration first-and-last run is point-symmetric
only approximately: every pair of opposite cells of the resulting grid
agrees to within 1/1000 (hence in the rounded one-decimal display), but
exact equality fails. -/
theorem solver_100_iterations_approx_symmetric (i j : Nat) (hi : i < 4) (hj : j < 4) :
    calc_mini_gridworld cfg8 1 (zeros 4 4) = Except.ok (grid100, 100) ∧
    |getCell grid100 i j - getCell grid100 (3 - i) (3 - j)| ≤ 1 / 1000 := by
  refine ⟨calc100_ok, ?_⟩
  interval_cases i <;> interval_cases j <;> decide

/-- C8 witness: the approximate-symmetry bound evaluated at the cell pair
(0,1) / (3,2). -/
theorem solver_100_iterations_approx_symmetric_witness :
    calc_mini_gridworld cfg8 1 (zeros 4 4) = Except.ok (grid100, 100) ∧
    |getCell grid100 0 1 - getCell grid100 3 2| ≤ 1 / 1000 :=
  solver_100_iterations_approx_symmetric 0 1 (by decide) (by decide)

/-- C10: on a 1x1 grid in convergence mode the sole cell is the
bottom-right terminal, so the sweep changes nothing, the delta computation
is `max` over the flattened grid with its first (and only) index dropped —
an empty sequence, which raises `ValueError` — and the solve loop
therefore fails instead of converging, for every fuel bound. -/
theorem convergence_fails_on_1x1 (cfg : Cfg) (hit : cfg.iterations = 0) (fuel : Nat) :
    sweep cfg (zeros 1 1) = zeros 1 1 ∧
    deltaOf (zeros 1 1) (sweep cfg (zeros 1 1)) = none ∧
    calc_mini_gridworld cfg (fuel + 1) (zeros 1 1) =
      Except.error "ValueError: max() arg is an empty sequence" := by
  have hterm : isTerminal cfg 1 1 0 0 = true := by
    simp [isTerminal]
  have h1 : sweep cfg (zeros 1 1) = zeros 1 1 := by
    show updateCell cfg 1 1 (zeros 1 1) (0, 0) = zeros 1 1
    simp [updateCell, hterm]
  have h2 : deltaOf (zeros 1 1) (sweep cfg (zeros 1 1)) = none := by
    rw [h1]
    rfl
  refine ⟨h1, h2, ?_⟩
  rw [calc_mini_gridworld, if_pos hit, convergeLoop]
  simp only [h2]

/-- C10 witness: the failure evaluated at a concrete configuration with
fuel 1. -/
theorem convergence_fails_on_1x1_witness :
    sweep ⟨-1, 1, 1 / 100000, TerminalMode.last, 0⟩ (zeros 1 1) = zeros 1 1 ∧
    deltaOf (zeros 1 1)
      (sweep ⟨-1, 1, 1 / 100000, TerminalMode.last, 0⟩ (zeros 1 1)) = none ∧
    calc_mini_gridworld ⟨-1, 1, 1 / 100000, TerminalMode.last, 0⟩ 1 (zeros 1 1) =
      Except.error "ValueError: max() arg is an empty sequence" :=
  convergence_fails_on_1x1 ⟨-1, 1, 1 / 100000, TerminalMode.last, 0⟩ rfl 0

end GridWorld
